import Mathlib

/-!
Verification of the llmio dispatch-and-retry engine (`service` package:
`BalanceChat`, `SaveChatLog`, `ProvidersBymodelsName`) against its
specification.

The Go code is shallowly embedded: database tables are lists of rows, the
mutable weight map is an association list, the per-attempt external world
(request-context state, random draw, upstream outcome, log-store result,
client write behaviour) is an oracle, and the dispatch loop is a
fuel-indexed recursion whose fuel is the per-model `max_retry` bound.
Machine integers are embedded as `Int`; Go's truncating division and
Lean's `Int` division agree on the nonnegative operands that occur here.
-/

namespace Llmio

/-- A row of the `providers` table (`models.Provider`): `id`, `name`,
`type` (the style, e.g. "openai"), the opaque `config` blob, and the
soft-delete column `deleted_at` (embedded as an optional timestamp). -/
structure Provider where
  id : Nat
  name : String
  type : String
  config : String
  deletedAt : Option Nat
deriving Repr, DecidableEq

/-- A row of the `model_with_providers` table (`models.ModelWithProvider`):
the binding between a logical model and one provider, with weight and the
three-valued capability flags (`nil` = unconstrained). -/
structure ModelWithProvider where
  id : Nat
  modelID : Nat
  providerID : Nat
  providerModel : String
  weight : Int
  toolCall : Option Bool
  structuredOutput : Option Bool
  image : Option Bool
  deletedAt : Option Nat
deriving Repr, DecidableEq

/-- A row of the `models` table (`models.Model`): logical name plus the
per-request retry and timeout budget. -/
structure ModelRow where
  id : Nat
  name : String
  maxRetry : Nat
  timeOut : Nat
  deletedAt : Option Nat
deriving Repr, DecidableEq

/-- The result of the request introspector (`Beforer`): target model name,
stream flag and the three requested capabilities. The raw body is not
needed by the claims and is omitted. -/
structure BeforeParams where
  model : String
  stream : Bool
  toolCall : Bool
  structuredOutput : Bool
  image : Bool
deriving Repr, DecidableEq

/-- A `models.ChatLog` record as built by `BalanceChat` (lines 202-210):
only the fields the dispatch loop itself writes are embedded. -/
structure ChatLog where
  name : String
  providerModel : String
  providerName : String
  status : String
  style : String
  retry : Nat
  error : Option String
deriving Repr, DecidableEq

/-- Modelled from the spec: `models.ChatLog.WithError` is not under `src/`.
Per spec section 7, every failure path writes a ChatLog with
`status = error` and the error text. -/
def ChatLog.WithError (l : ChatLog) (e : String) : ChatLog :=
  { l with status := "error", error := some e }

/-- The provisional ChatLog built at lines 202-210 of `BalanceChat`:
status starts as "success" and is turned into an error log by
`WithError` on the failure paths. -/
def mkLog (before : BeforeParams) (mp : ModelWithProvider) (p : Provider)
    (style : String) (retry : Nat) : ChatLog :=
  { name := before.model, providerModel := mp.providerModel,
    providerName := p.name, status := "success", style := style,
    retry := retry, error := none }

/-! ### The weight map

The Go `map[uint]int` named `items` is embedded as an association list.
The loop mutates it in exactly two ways: `delete(items, *item)` and
`items[*item] -= items[*item] / 3`. -/

/-- Map read `items[k]`. -/
def wLookup (m : List (Nat × Int)) (k : Nat) : Option Int :=
  (m.find? (fun p => p.1 == k)).map Prod.snd

/-- `delete(items, k)` (lines 230 and 257). -/
def wErase (m : List (Nat × Int)) (k : Nat) : List (Nat × Int) :=
  m.filter (fun p => p.1 != k)

/-- `items[k] -= items[k] / 3` (line 254), the 429 penalty. -/
def wPenalize (m : List (Nat × Int)) (k : Nat) : List (Nat × Int) :=
  m.map (fun p => if p.1 == k then (p.1, p.2 - p.2 / 3) else p)

/-! ### The balancer -/

/-- Scan entries accumulating weights, returning the first key whose
running weight exceeds the draw. -/
def weightedScan : List (Nat × Int) → Int → Option Nat
  | [], _ => none
  | (k, w) :: rest, d => if d < w then some k else weightedScan rest (d - w)

/-- The total weight of the entries. -/
def wTotal (items : List (Nat × Int)) : Int :=
  items.foldl (fun acc p => acc + p.2) 0

/-- Modelled from the spec: the file implementing `balancer.WeightedRandom`
is not under `src/`. Spec section 4.A: compute the total, draw a uniform
integer in `[0, total)`, scan the snapshot of entries accumulating
weights, and return the first key whose running sum exceeds the draw;
empty input is an error (embedded as `none`). The uniform draw is supplied
by the oracle as a natural number and reduced modulo the total. -/
def WeightedRandom (items : List (Nat × Int)) (draw : Nat) : Option Nat :=
  if wTotal items ≤ 0 then none
  else weightedScan items ((draw : Int) % wTotal items)

/-! ### Pool resolution (lines 83-134) -/

/-- One capability test of the filter at lines 106-116: the Go condition
`flag != nil && need && !*flag` that skips a mapping. -/
def capBlocked (flag : Option Bool) (need : Bool) : Bool :=
  match flag with
  | some b => need && !b
  | none => false

/-- `providerMap[pid]` where `providerMap` is built from the loaded
provider rows (lines 97-101); provider ids are primary keys, so taking
the first row with the id matches the Go map. -/
def providerLookup (ps : List Provider) (pid : Nat) : Option Provider :=
  ps.find? (fun p => p.id == pid)

/-- The mapping filter of lines 103-123: a mapping is kept iff no
capability blocks it, its provider is present in `providerMap`, and the
provider's type equals the request style. -/
def keepMapping (style : String) (before : BeforeParams)
    (ps : List Provider) (mp : ModelWithProvider) : Bool :=
  if capBlocked mp.toolCall before.toolCall then false
  else if capBlocked mp.structuredOutput before.structuredOutput then false
  else if capBlocked mp.image before.image then false
  else
    match providerLookup ps mp.providerID with
    | none => false
    | some p => p.type == style

/-- The weight map `items` built at lines 103-123 from the loaded mapping
slice. -/
def poolItems (style : String) (before : BeforeParams) (ps : List Provider)
    (mappings : List ModelWithProvider) : List (Nat × Int) :=
  (mappings.filter (keepMapping style before ps)).map
    (fun mp => (mp.id, mp.weight))

/-- The spec's eligibility predicate, stated from the spec's words
(sections 3 and 4.C) for comparison with the source-derived filter
`keepMapping`: the mapping's provider is in the loaded set with type
equal to the style, and each needed capability flag is null or true. -/
def eligibleSpec (style : String) (before : BeforeParams)
    (ps : List Provider) (mp : ModelWithProvider) : Prop :=
  (∃ p ∈ ps, p.id = mp.providerID ∧ p.type = style) ∧
  (before.toolCall = true → mp.toolCall ≠ some false) ∧
  (before.structuredOutput = true → mp.structuredOutput ≠ some false) ∧
  (before.image = true → mp.image ≠ some false)

/-! ### Repository read paths (lines 88, 324, 346)

The `models` package is not under `src/`, so the semantics of the three
GORM queries is modelled from the repository's own documentation: the
project's GORM standard (AGENTS.md) declares `DeletedAt *time.Time`,
which does not enable GORM's automatic soft-delete condition, so each
query filters by exactly the conditions written in its `Where` clauses. -/

/-- Line 324: `Where("name = ? AND deleted_at IS NULL")` followed by
`First` — the one read path with an explicit soft-delete filter. -/
def modelByName (tbl : List ModelRow) (nm : String) : Option ModelRow :=
  tbl.find? (fun r => r.name == nm && r.deletedAt == none)

/-- Line 346: `Where("model_id = ?")` — no soft-delete condition. -/
def mappingsByModelID (tbl : List ModelWithProvider) (mid : Nat) :
    List ModelWithProvider :=
  tbl.filter (fun r => r.modelID == mid)

/-- Line 88: `Where("id IN ?").Where("type = ?")` — no soft-delete
condition. -/
def providersByIdsAndType (tbl : List Provider) (ids : List Nat)
    (style : String) : List Provider :=
  tbl.filter (fun r => ids.contains r.id && r.type == style)

/-- `ProvidersBymodelsName` (lines 318-375): load the model row by name,
then all mapping rows for its id; errors on a missing model or an empty
mapping slice. Returns the mappings plus the retry/timeout budget. -/
def ProvidersBymodelsName (modelTbl : List ModelRow)
    (mappingTbl : List ModelWithProvider) (nm : String) :
    Except String (List ModelWithProvider × Nat × Nat) :=
  match modelByName modelTbl nm with
  | none => .error ("not found model " ++ nm)
  | some m =>
    let rows := mappingsByModelID mappingTbl m.id
    if rows.isEmpty then .error ("not provider for model " ++ nm)
    else .ok (rows, m.maxRetry, m.timeOut)

/-! ### The attempt-entry selector (lines 159-172) -/

/-- The three branches of the `select` at the top of each loop
iteration. -/
inductive SelectBranch where
  | cancelled
  | timedOut
  | defaultCase
deriving Repr, DecidableEq

/-- Readiness of the channel returned by `time.After(timeoutSeconds)`:
it becomes ready once `timeoutSeconds` have elapsed since the timer was
created. -/
def timerChanReady (timeoutSeconds elapsedSinceCreation : Nat) : Bool :=
  timeoutSeconds ≤ elapsedSinceCreation

/-- Go semantics of the `select` at lines 159-172: the timer is created
afresh by `time.After` when the `select` executes, and because the
`select` has a `default` case it never blocks — readiness is polled at
entry, where the time elapsed since the timer's creation is zero. (When
several cases are ready Go chooses randomly; that only matters for
`timeoutSeconds = 0`, and the model then prioritises the context branch.) -/
def attemptEntrySelect (ctxDone : Bool) (timeoutSeconds : Nat) :
    SelectBranch :=
  if ctxDone then .cancelled
  else if timerChanReady timeoutSeconds 0 then .timedOut
  else .defaultCase

/-! ### The success-path copy (lines 275-298) -/

/-- The upstream response body: a sequence of byte chunks followed by
either EOF (`readErr = none`) or a read error. -/
structure UpstreamBody where
  chunks : List (List Nat)
  readErr : Option String
deriving Repr, DecidableEq

/-- `io.Copy(c.Writer, tee)` where `tee = io.TeeReader(res.Body, pw)`:
chunk by chunk, each read chunk is first duplicated to the pipe (the
accounting side) and then written to the client; a client write failure
at chunk index `failAt` stops the copy. Returns
(client bytes, accounting bytes, write-error flag). -/
def copyChunks : List (List Nat) → Option Nat → List Nat × List Nat × Bool
  | [], _ => ([], [], false)
  | c :: rest, failAt =>
    match failAt with
    | some 0 => ([], c, true)
    | some (n + 1) =>
      let r := copyChunks rest (some n)
      (c ++ r.1, c ++ r.2.1, r.2.2)
    | none =>
      let r := copyChunks rest none
      (c ++ r.1, c ++ r.2.1, r.2.2)

/-- The result of the copy as observed by `BalanceChat`: the bytes the
client received and the error `io.Copy` returned (a client write error,
or the body's read error, or `none` on clean EOF). -/
def runCopy (body : UpstreamBody) (failAt : Option Nat) :
    List Nat × Option String :=
  let r := copyChunks body.chunks failAt
  (r.1, if r.2.2 then some "client write error" else body.readErr)

/-! ### The dispatch loop (lines 152-302) -/

/-- The outcome of one `chatModel.Chat` call: a transport error or an
HTTP response with a status code and a body. -/
inductive CallOutcome where
  | transportError (msg : String)
  | http (status : Nat) (body : UpstreamBody)
deriving Repr, DecidableEq

/-- The external world of one loop iteration: whether the request context
is done, the balancer's random draw, the result of `providers.New`, the
upstream call outcome, the result of the synchronous `SaveChatLog`
(`none` = ok), and the chunk index at which the client write fails, if
any. -/
structure Attempt where
  ctxDone : Bool
  draw : Nat
  newErr : Option String
  outcome : CallOutcome
  saveErr : Option String
  writeFailAt : Option Nat
deriving Repr, DecidableEq

/-- The observable side effects of the loop, in program order: a failure
ChatLog sent on the `retryErrLog` channel, the synchronous save of the
provisional success ChatLog, the response headers being set, and the
bytes delivered to the client. -/
inductive Event where
  | sendFail (log : ChatLog)
  | saveSuccess (retry : Nat)
  | setHeaders (stream : Bool)
  | deliver (bytes : List Nat)
deriving Repr, DecidableEq

/-- How `BalanceChat` leaves the loop. `done` is the success return
(line 298, or line 293 with the copy error); `indexPanic` models the
panic of `llmproviders[modelWithProviderIndex]` when `IndexFunc` returns
-1; `nilProviderPanic` models the nil dereference of
`providerMap[...ProviderID]`. -/
inductive LoopResult where
  | done (delivered : List Nat) (copyErr : Option String)
  | cancelled
  | retryTimeout
  | balancerEmpty
  | indexPanic
  | nilProviderPanic
  | adapterError (msg : String)
  | saveFailed (msg : String)
  | maxRetries
deriving Repr, DecidableEq

/-- A step either stops the loop with a result or continues with the
mutated weight map; both carry the events of the iteration. -/
inductive StepOut where
  | stop (r : LoopResult) (evs : List Event)
  | next (items : List (Nat × Int)) (evs : List Event)
deriving Repr, DecidableEq

/-- One iteration of the loop body (lines 159-299): the attempt-entry
`select`; `balancer.WeightedRandom`; the `IndexFunc` lookup of the picked
mapping and the `providerMap` lookup of its provider; `providers.New`;
the upstream call; and the classification of its outcome — transport
error: send failure log, remove; non-200 status: send failure log, then
penalize on 429 or remove otherwise; 200: save the provisional success
log (failure returns that error), set headers, and copy the tee to the
client. -/
def balanceStep (style : String) (before : BeforeParams)
    (ps : List Provider) (mappings : List ModelWithProvider)
    (timeoutSeconds : Nat) (retry : Nat) (a : Attempt)
    (items : List (Nat × Int)) : StepOut :=
  match attemptEntrySelect a.ctxDone timeoutSeconds with
  | .cancelled => .stop .cancelled []
  | .timedOut => .stop .retryTimeout []
  | .defaultCase =>
    match WeightedRandom items a.draw with
    | none => .stop .balancerEmpty []
    | some id =>
      match mappings.find? (fun mp => mp.id == id) with
      | none => .stop .indexPanic []
      | some mp =>
        match providerLookup ps mp.providerID with
        | none => .stop .nilProviderPanic []
        | some p =>
          match a.newErr with
          | some e => .stop (.adapterError e) []
          | none =>
            match a.outcome with
            | .transportError msg =>
              .next (wErase items id)
                [.sendFail ((mkLog before mp p style retry).WithError msg)]
            | .http status body =>
              if status != 200 then
                if status == 429 then
                  .next (wPenalize items id)
                    [.sendFail ((mkLog before mp p style retry).WithError
                      ("status: " ++ toString status))]
                else
                  .next (wErase items id)
                    [.sendFail ((mkLog before mp p style retry).WithError
                      ("status: " ++ toString status))]
              else
                match a.saveErr with
                | some e => .stop (.saveFailed e) []
                | none =>
                  .stop (.done (runCopy body a.writeFailAt).1
                      (runCopy body a.writeFailAt).2)
                    [.saveSuccess retry, .setHeaders before.stream,
                     .deliver (runCopy body a.writeFailAt).1]

/-- The retry loop `for retry := 0; retry < MaxRetry; retry++` with fuel
equal to the number of remaining iterations; the oracle supplies each
iteration's external world. Returns the loop result, the final weight
map, and the events of the run in order. -/
def balanceLoop (style : String) (before : BeforeParams)
    (ps : List Provider) (mappings : List ModelWithProvider)
    (timeoutSeconds : Nat) (oracle : Nat → Attempt) :
    Nat → Nat → List (Nat × Int) →
    LoopResult × List (Nat × Int) × List Event
  | 0, _, items => (.maxRetries, items, [])
  | fuel + 1, retry, items =>
    match balanceStep style before ps mappings timeoutSeconds retry
        (oracle retry) items with
    | .stop r evs => (r, items, evs)
    | .next items2 evs =>
      let o := balanceLoop style before ps mappings timeoutSeconds oracle
        fuel (retry + 1) items2
      (o.1, o.2.1, evs ++ o.2.2)

/-- How `BalanceChat` ends, as seen by its caller. -/
inductive ChatOutcome where
  | resolveFailed (msg : String)
  | noStyleProvider
  | noEligible
  | loopDone (r : LoopResult)
deriving Repr, DecidableEq

/-- `BalanceChat` after introspection (lines 58-302): resolve the
mappings and budget; load the providers for their ids filtered to the
style (error when none); build the weight map (error when empty); run
the dispatch loop with `max_retry` as fuel. (The length check at line 78
is subsumed by the error inside `ProvidersBymodelsName`.) -/
def BalanceChatRun (modelTbl : List ModelRow)
    (mappingTbl : List ModelWithProvider) (providerTbl : List Provider)
    (style : String) (before : BeforeParams) (oracle : Nat → Attempt) :
    ChatOutcome × List Event :=
  match ProvidersBymodelsName modelTbl mappingTbl before.model with
  | .error e => (.resolveFailed e, [])
  | .ok (mappings, maxRetry, timeOut) =>
    let ids := mappings.map (fun mp => mp.providerID)
    let ps := providersByIdsAndType providerTbl ids style
    if ps.isEmpty then (.noStyleProvider, [])
    else
      let items := poolItems style before ps mappings
      if items.isEmpty then (.noEligible, [])
      else
        let o := balanceLoop style before ps mappings timeOut oracle
          maxRetry 0 items
        (.loopDone o.1, o.2.2)

/-! ### Auxiliary observers -/

/-- Whether an upstream call outcome is the one the engine treats as
success (`res.StatusCode == http.StatusOK`, line 234). -/
def outcomeSucceeds : CallOutcome → Bool
  | .http s _ => s == 200
  | _ => false

/-- Whether an event is a failure-log send. -/
def eventIsSendFail : Event → Bool
  | .sendFail _ => true
  | _ => false

/-- The number of failure ChatLogs emitted in a run. -/
def sendFailCount (evs : List Event) : Nat :=
  evs.countP (fun e => eventIsSendFail e)

/-- Whether a loop result is the `IndexFunc` slice-indexing panic. -/
def resultIsIndexPanic : LoopResult → Bool
  | .indexPanic => true
  | _ => false

/-! ### The asynchronous log writer (lines 141-150)

Failure ChatLogs are sent on a buffered channel drained by a background
goroutine that inserts them with `context.Background()`; `created_at` is
assigned by the store at insert time. An insertion schedule assigns each
failure log its insert time; admissibility only requires each insert to
happen after its send and the inserts to respect the channel's FIFO
order — the goroutine gives no upper bound relative to later dispatch
events. -/

/-- `sendPos` lists the trace positions of the failure-log sends in
order; `t i` is the insert time of the `i`-th failure log. -/
def admissibleSchedule (sendPos : List Nat) (t : Nat → Nat) : Prop :=
  (∀ i, i < sendPos.length → sendPos.getD i 0 < t i) ∧
  (∀ i j, i < j → j < sendPos.length → t i < t j)

/-- The property claimed of `created_at`: under every admissible
schedule, every failure log is inserted no later than the success log
(whose insert is synchronous, at trace position `successPos`). -/
def failureTimesBounded (sendPos : List Nat) (successPos : Nat) : Prop :=
  ∀ t : Nat → Nat, admissibleSchedule sendPos t →
    ∀ i, i < sendPos.length → t i ≤ successPos

/-! ### Concrete fixtures used by witnesses and counterexamples -/

/-- A loaded provider row of type "openai". -/
def pA : Provider :=
  { id := 1, name := "A", type := "openai", config := "c", deletedAt := none }

/-- An introspected request with no capability needs. -/
def beforeX : BeforeParams :=
  { model := "m", stream := false, toolCall := false,
    structuredOutput := false, image := false }

/-- Mapping with id 1 and weight 6 on provider `pA`. -/
def mpA : ModelWithProvider :=
  { id := 1, modelID := 1, providerID := 1, providerModel := "gpt-a",
    weight := 6, toolCall := none, structuredOutput := none, image := none,
    deletedAt := none }

/-- Mapping with id 2 and weight 1 on provider `pA`. -/
def mpB : ModelWithProvider :=
  { id := 2, modelID := 1, providerID := 1, providerModel := "gpt-b",
    weight := 1, toolCall := none, structuredOutput := none, image := none,
    deletedAt := none }

/-- A two-byte upstream body. -/
def bodyAA : UpstreamBody := { chunks := [[65, 65]], readErr := none }

/-- A one-byte upstream body. -/
def bodyB : UpstreamBody := { chunks := [[66]], readErr := none }

/-- An attempt whose external world is benign except for the given call
outcome. -/
def attOf (o : CallOutcome) : Attempt :=
  { ctxDone := false, draw := 0, newErr := none, outcome := o,
    saveErr := none, writeFailAt := none }

/-- Oracle: attempt 0 gets a 201 response, later attempts get 200. -/
def oracleC1 : Nat → Attempt := fun i =>
  if i = 0 then attOf (.http 201 bodyAA) else attOf (.http 200 bodyB)

/-- Oracle: every attempt fails with a transport error. -/
def oracleC4 : Nat → Attempt := fun _ =>
  attOf (.transportError "connection refused")

/-- Oracle: attempt 0 fails with a transport error, later attempts get
200. -/
def oracleC8 : Nat → Attempt := fun i =>
  if i = 0 then attOf (.transportError "connection refused")
  else attOf (.http 200 bodyB)

/-- Oracle: the upstream returns 200 but the synchronous ChatLog save
fails. -/
def oracleC10 : Nat → Attempt := fun _ =>
  { attOf (.http 200 bodyB) with saveErr := some "db write failed" }

/-- A soft-deleted mapping row (nonnull `deleted_at`). -/
def mpDel : ModelWithProvider :=
  { id := 3, modelID := 1, providerID := 1, providerModel := "gpt-del",
    weight := 1, toolCall := none, structuredOutput := none, image := none,
    deletedAt := some 5 }

/-- The model row backing the fixtures. -/
def modelRowM : ModelRow :=
  { id := 1, name := "m", maxRetry := 3, timeOut := 30, deletedAt := none }

/-- A mapping whose tool-call flag is explicitly false. -/
def mpNoTools : ModelWithProvider :=
  { id := 4, modelID := 1, providerID := 1, providerModel := "gpt-nt",
    weight := 1, toolCall := some false, structuredOutput := none,
    image := none, deletedAt := none }

/-- An introspected request that needs tool calling. -/
def beforeTools : BeforeParams :=
  { model := "m", stream := false, toolCall := true,
    structuredOutput := false, image := false }

/-- A soft-deleted provider row (nonnull `deleted_at`). -/
def pDel : Provider :=
  { id := 9, name := "Del", type := "openai", config := "c",
    deletedAt := some 3 }

/-! ## Helper lemmas -/

/-- With the context alive and any positive timeout the attempt-entry
select takes its default branch. -/
theorem attemptEntrySelect_default (t : Nat) (ht : 1 ≤ t) :
    attemptEntrySelect false t = .defaultCase := by
  simp only [attemptEntrySelect, timerChanReady, if_false, Bool.false_eq_true]
  have : ¬ (t ≤ 0) := by omega
  simp [this]

/-- A key is absent from the weight map iff no entry carries it. -/
theorem wLookup_eq_none (m : List (Nat × Int)) (k : Nat) :
    wLookup m k = none ↔ ∀ p ∈ m, p.1 ≠ k := by
  simp [wLookup, List.find?_eq_none]

/-- Reading the penalized map at the penalized key: the weight drops by
its third. -/
theorem wLookup_wPenalize (m : List (Nat × Int)) (k : Nat) :
    wLookup (wPenalize m k) k = (wLookup m k).map (fun w => w - w / 3) := by
  induction m with
  | nil => rfl
  | cons p rest ih =>
    obtain ⟨k', w'⟩ := p
    by_cases h : k' = k
    · subst h
      simp [wPenalize, wLookup, List.find?_cons]
    · have hb : (k' == k) = false := by simp [h]
      simp only [wPenalize, List.map_cons, hb, if_false, Bool.false_eq_true]
      simp only [wLookup, List.find?_cons, hb] at ih ⊢
      exact ih

/-- Erasing a key removes it from the map. -/
theorem wLookup_wErase (m : List (Nat × Int)) (k : Nat) :
    wLookup (wErase m k) k = none := by
  rw [wLookup_eq_none]
  intro p hp
  have := List.of_mem_filter hp
  simpa using this

/-- Erasure never resurrects an absent key. -/
theorem wLookup_none_wErase (m : List (Nat × Int)) (k k' : Nat)
    (h : wLookup m k = none) : wLookup (wErase m k') k = none := by
  rw [wLookup_eq_none] at h ⊢
  exact fun p hp => h p (List.mem_of_mem_filter hp)

/-- The per-entry penalty function keeps the entry's key. -/
theorem wPenalize_fst (q : Nat × Int) (k' : Nat) :
    ((if q.1 == k' then (q.1, q.2 - q.2 / 3) else q) : Nat × Int).1 = q.1 := by
  split <;> rfl

/-- Penalizing never resurrects an absent key. -/
theorem wLookup_none_wPenalize (m : List (Nat × Int)) (k k' : Nat)
    (h : wLookup m k = none) : wLookup (wPenalize m k') k = none := by
  rw [wLookup_eq_none] at h ⊢
  intro p hp
  simp only [wPenalize, List.mem_map] at hp
  obtain ⟨q, hq, hpq⟩ := hp
  have hp1 : p.1 = q.1 := by rw [← hpq]; exact wPenalize_fst q k'
  rw [hp1]
  exact h q hq

/-- Any key the penalized map carries was already in the map. -/
theorem wPenalize_keys (m : List (Nat × Int)) (k' : Nat) (p : Nat × Int)
    (hp : p ∈ wPenalize m k') : ∃ w, (p.1, w) ∈ m := by
  simp only [wPenalize, List.mem_map] at hp
  obtain ⟨q, hq, hpq⟩ := hp
  have hp1 : p.1 = q.1 := by rw [← hpq]; exact wPenalize_fst q k'
  rw [hp1]
  exact ⟨q.2, by simpa using hq⟩

/-- Any key the erased map carries was already in the map. -/
theorem wErase_keys (m : List (Nat × Int)) (k' : Nat) (p : Nat × Int)
    (hp : p ∈ wErase m k') : (p.1, p.2) ∈ m :=
  List.mem_of_mem_filter hp

/-- A key returned by the scan is a key of the scanned entries. -/
theorem weightedScan_mem (items : List (Nat × Int)) (d : Int) (k : Nat)
    (h : weightedScan items d = some k) : ∃ w, (k, w) ∈ items := by
  induction items generalizing d with
  | nil => simp [weightedScan] at h
  | cons p rest ih =>
    obtain ⟨k', w'⟩ := p
    rw [weightedScan] at h
    split at h
    · injection h with h; subst h; exact ⟨w', List.mem_cons_self _ _⟩
    · obtain ⟨w, hw⟩ := ih _ h
      exact ⟨w, List.mem_cons_of_mem _ hw⟩

/-- A key returned by the balancer is a key of the weight map. -/
theorem WeightedRandom_mem (items : List (Nat × Int)) (draw k : Nat)
    (h : WeightedRandom items draw = some k) : ∃ w, (k, w) ∈ items := by
  unfold WeightedRandom at h
  split at h
  · exact absurd h (by simp)
  · exact weightedScan_mem _ _ _ h

/-- For any context state, a positive timeout means the attempt-entry
select never takes the timeout branch. -/
theorem attemptEntrySelect_ne_timedOut (d : Bool) (t : Nat) (ht : 1 ≤ t) :
    attemptEntrySelect d t ≠ .timedOut := by
  cases d with
  | true => intro h; exact SelectBranch.noConfusion h
  | false =>
    rw [attemptEntrySelect_default t ht]
    intro h
    exact SelectBranch.noConfusion h

/-- A kept mapping has a loadable provider. -/
theorem keepMapping_provider (style : String) (before : BeforeParams)
    (ps : List Provider) (mp : ModelWithProvider)
    (h : keepMapping style before ps mp = true) :
    ∃ p, providerLookup ps mp.providerID = some p := by
  unfold keepMapping at h
  repeat' split at h
  all_goals try exact Bool.noConfusion h
  next p heq => exact ⟨p, heq⟩

/-- With no duplicate mapping ids, the `IndexFunc` search for a member's
id returns that member. -/
theorem find_id_of_mem (mappings : List ModelWithProvider)
    (mp : ModelWithProvider)
    (hnd : (mappings.map (fun m => m.id)).Nodup) (hm : mp ∈ mappings) :
    mappings.find? (fun m => m.id == mp.id) = some mp := by
  induction mappings with
  | nil => cases hm
  | cons m rest ih =>
    simp only [List.map_cons, List.nodup_cons] at hnd
    rcases List.mem_cons.mp hm with h | h
    · subst h
      exact List.find?_cons_of_pos _ (by simp)
    · have hne : ¬ m.id = mp.id := by
        intro he
        exact hnd.1 (he ▸ List.mem_map_of_mem _ h)
      rw [List.find?_cons_of_neg _ (by simp [hne])]
      exact ih hnd.2 h

/-- Every key of the pool built from the mapping slice is the id of a
kept mapping; with no duplicate mapping ids the `IndexFunc` search finds
that mapping. -/
theorem poolItems_covered (style : String) (before : BeforeParams)
    (ps : List Provider) (mappings : List ModelWithProvider)
    (hnd : (mappings.map (fun m => m.id)).Nodup) :
    ∀ p ∈ poolItems style before ps mappings,
      ∃ mp, mappings.find? (fun m => m.id == p.1) = some mp ∧
        keepMapping style before ps mp = true := by
  intro p hp
  simp only [poolItems, List.mem_map] at hp
  obtain ⟨mp, hmp, hpe⟩ := hp
  have hmem := List.mem_of_mem_filter hmp
  have hkeep := List.of_mem_filter hmp
  refine ⟨mp, ?_, hkeep⟩
  have : p.1 = mp.id := by rw [← hpe]
  rw [this]
  exact find_id_of_mem mappings mp hnd hmem

/-- Unfolding the loop when the step stops. -/
theorem balanceLoop_succ_stop (style : String) (before : BeforeParams)
    (ps : List Provider) (mappings : List ModelWithProvider)
    (t : Nat) (oracle : Nat → Attempt) (fuel retry : Nat)
    (items : List (Nat × Int)) (r : LoopResult) (evs : List Event)
    (h : balanceStep style before ps mappings t retry (oracle retry) items =
      .stop r evs) :
    balanceLoop style before ps mappings t oracle (fuel + 1) retry items =
      (r, items, evs) := by
  rw [balanceLoop, h]

/-- Unfolding the loop when the step continues. -/
theorem balanceLoop_succ_next (style : String) (before : BeforeParams)
    (ps : List Provider) (mappings : List ModelWithProvider)
    (t : Nat) (oracle : Nat → Attempt) (fuel retry : Nat)
    (items its2 : List (Nat × Int)) (evs : List Event)
    (h : balanceStep style before ps mappings t retry (oracle retry) items =
      .next its2 evs) :
    balanceLoop style before ps mappings t oracle (fuel + 1) retry items =
      ((balanceLoop style before ps mappings t oracle fuel (retry + 1)
          its2).1,
       (balanceLoop style before ps mappings t oracle fuel (retry + 1)
          its2).2.1,
       evs ++ (balanceLoop style before ps mappings t oracle fuel (retry + 1)
          its2).2.2) := by
  rw [balanceLoop, h]

/-- A continuing step emits exactly one failure-log send and only ever
shrinks or reweights the key set. -/
theorem balanceStep_next_shape (style : String) (before : BeforeParams)
    (ps : List Provider) (mappings : List ModelWithProvider)
    (t retry : Nat) (a : Attempt) (items its2 : List (Nat × Int))
    (evs2 : List Event)
    (h : balanceStep style before ps mappings t retry a items =
      .next its2 evs2) :
    (∃ l, evs2 = [Event.sendFail l]) ∧
    ∀ p ∈ its2, ∃ w, (p.1, w) ∈ items := by
  unfold balanceStep at h
  repeat' split at h
  all_goals try exact StepOut.noConfusion h
  all_goals injection h with h1 h2
  all_goals subst h1
  all_goals subst h2
  all_goals refine ⟨⟨_, rfl⟩, ?_⟩
  · intro p hp
    exact ⟨p.2, wErase_keys _ _ _ hp⟩
  · intro p hp
    exact wPenalize_keys _ _ _ hp
  · intro p hp
    exact ⟨p.2, wErase_keys _ _ _ hp⟩

/-- A stopping step emits no events unless it is the success return, in
which case the result and the delivered bytes agree with the events. -/
theorem balanceStep_stop_shape (style : String) (before : BeforeParams)
    (ps : List Provider) (mappings : List ModelWithProvider)
    (t retry : Nat) (a : Attempt) (items : List (Nat × Int))
    (r : LoopResult) (evs : List Event)
    (h : balanceStep style before ps mappings t retry a items =
      .stop r evs) :
    ((∀ d ce, r ≠ .done d ce) ∧ evs = []) ∨
    (∃ d ce, r = .done d ce ∧
      evs = [.saveSuccess retry, .setHeaders before.stream, .deliver d]) := by
  unfold balanceStep at h
  repeat' split at h
  all_goals try exact StepOut.noConfusion h
  all_goals injection h with h1 h2
  all_goals subst h1
  all_goals subst h2
  all_goals first
    | exact Or.inl ⟨fun d ce h2 => LoopResult.noConfusion h2, rfl⟩
    | exact Or.inr ⟨_, _, rfl, rfl⟩

/-- The `IndexFunc` panic can only arise from a picked key missing from
the mapping slice. -/
theorem balanceStep_indexPanic_inv (style : String) (before : BeforeParams)
    (ps : List Provider) (mappings : List ModelWithProvider)
    (t retry : Nat) (a : Attempt) (items : List (Nat × Int))
    (evs : List Event)
    (h : balanceStep style before ps mappings t retry a items =
      .stop .indexPanic evs) :
    ∃ id, WeightedRandom items a.draw = some id ∧
      mappings.find? (fun m => m.id == id) = none := by
  unfold balanceStep at h
  repeat' split at h
  all_goals try exact StepOut.noConfusion h
  all_goals injection h with h1 h2
  all_goals try exact LoopResult.noConfusion h1
  exact ⟨_, by assumption, by assumption⟩

/-- The loop can only return the retry-timeout error if the attempt-entry
select took the timeout branch. -/
theorem balanceStep_retryTimeout_inv (style : String) (before : BeforeParams)
    (ps : List Provider) (mappings : List ModelWithProvider)
    (t retry : Nat) (a : Attempt) (items : List (Nat × Int))
    (evs : List Event)
    (h : balanceStep style before ps mappings t retry a items =
      .stop .retryTimeout evs) :
    attemptEntrySelect a.ctxDone t = .timedOut := by
  unfold balanceStep at h
  repeat' split at h
  all_goals try exact StepOut.noConfusion h
  all_goals injection h with h1 h2
  all_goals first
    | assumption
    | exact LoopResult.noConfusion h1

/-- Under a live context, a positive timeout, a working adapter, a
non-200 outcome, and a pool covered by the mapping slice, the only way a
step can stop the loop is the balancer finding the weight map empty. -/
theorem balanceStep_stop_of_failure (style : String) (before : BeforeParams)
    (ps : List Provider) (mappings : List ModelWithProvider)
    (t retry : Nat) (a : Attempt) (items : List (Nat × Int))
    (r : LoopResult) (evs : List Event)
    (hctx : a.ctxDone = false) (ht : 1 ≤ t) (hnew : a.newErr = none)
    (hns : outcomeSucceeds a.outcome = false)
    (hcov : ∀ p ∈ items, ∃ mp,
      mappings.find? (fun m => m.id == p.1) = some mp ∧
      keepMapping style before ps mp = true)
    (h : balanceStep style before ps mappings t retry a items =
      .stop r evs) :
    r = .balancerEmpty ∧ evs = [] := by
  unfold balanceStep at h
  rw [hctx, attemptEntrySelect_default t ht] at h
  rcases hpick : WeightedRandom items a.draw with _ | id
  · rw [hpick] at h
    injection h with h1 h2
    exact ⟨h1.symm, h2.symm⟩
  · obtain ⟨w, hw⟩ := WeightedRandom_mem items a.draw id hpick
    obtain ⟨mp, hfind, hkeep⟩ := hcov (id, w) hw
    obtain ⟨p, hpl⟩ := keepMapping_provider style before ps mp hkeep
    rw [hpick] at h
    simp only [hfind, hpl, hnew] at h
    cases houtcome : a.outcome with
    | transportError msg =>
      rw [houtcome] at h
      exact StepOut.noConfusion h
    | http s body =>
      rw [houtcome] at hns
      simp only [outcomeSucceeds] at hns
      have hs : (s != 200) = true := by simp [bne, hns]
      rw [houtcome] at h
      dsimp only [] at h
      rw [if_pos hs] at h
      split at h <;> exact StepOut.noConfusion h

/-- Counting failure-log sends distributes over trace concatenation. -/
theorem sendFailCount_append (a b : List Event) :
    sendFailCount (a ++ b) = sendFailCount a + sendFailCount b :=
  List.countP_append _ _ _

/-- If every key of the weight map is the id of some loaded mapping, the
loop never reaches the `IndexFunc` panic. -/
theorem balanceLoop_no_indexPanic (style : String) (before : BeforeParams)
    (ps : List Provider) (mappings : List ModelWithProvider)
    (t : Nat) (oracle : Nat → Attempt) :
    ∀ fuel retry items,
      (∀ p ∈ items, ∃ mp ∈ mappings, mp.id = p.1) →
      resultIsIndexPanic
        (balanceLoop style before ps mappings t oracle fuel retry
          items).1 = false := by
  intro fuel
  induction fuel with
  | zero => intro retry items hcov; rfl
  | succ n ih =>
    intro retry items hcov
    rcases hstep : balanceStep style before ps mappings t retry
        (oracle retry) items with ⟨r, evs⟩ | ⟨its2, evs⟩
    · rw [balanceLoop_succ_stop style before ps mappings t oracle n retry
        items r evs hstep]
      cases r
      all_goals try rfl
      obtain ⟨id, hpick, hfind⟩ := balanceStep_indexPanic_inv style before
        ps mappings t retry (oracle retry) items evs hstep
      obtain ⟨w, hw⟩ := WeightedRandom_mem items (oracle retry).draw id hpick
      obtain ⟨mp, hmp, hid⟩ := hcov (id, w) hw
      have := List.find?_eq_none.mp hfind mp hmp
      simp [hid] at this
    · rw [balanceLoop_succ_next style before ps mappings t oracle n retry
        items its2 evs hstep]
      obtain ⟨_, hkeys⟩ := balanceStep_next_shape style before ps mappings
        t retry (oracle retry) items its2 evs hstep
      refine ih (retry + 1) its2 (fun p hp => ?_)
      obtain ⟨w, hw⟩ := hkeys p hp
      exact hcov (p.1, w) hw

/-- With a positive timeout the loop can never return the retry-timeout
error. -/
theorem balanceLoop_no_retryTimeout (style : String) (before : BeforeParams)
    (ps : List Provider) (mappings : List ModelWithProvider)
    (t : Nat) (oracle : Nat → Attempt) (ht : 1 ≤ t) :
    ∀ fuel retry items,
      (balanceLoop style before ps mappings t oracle fuel retry items).1 ≠
        LoopResult.retryTimeout := by
  intro fuel
  induction fuel with
  | zero => intro retry items h; exact LoopResult.noConfusion h
  | succ n ih =>
    intro retry items h
    rcases hstep : balanceStep style before ps mappings t retry
        (oracle retry) items with ⟨r, evs⟩ | ⟨its2, evs⟩
    · rw [balanceLoop_succ_stop style before ps mappings t oracle n retry
        items r evs hstep] at h
      have hr : r = .retryTimeout := h
      rw [hr] at hstep
      have := balanceStep_retryTimeout_inv style before ps mappings t retry
        (oracle retry) items evs hstep
      exact attemptEntrySelect_ne_timedOut _ t ht this
    · rw [balanceLoop_succ_next style before ps mappings t oracle n retry
        items its2 evs hstep] at h
      exact ih (retry + 1) its2 h

/-- Master lemma for pool exhaustion: with a live context, a positive
timeout, a working adapter, no successful outcome, and a pool covered by
the mapping slice, the loop ends in the retry bound or the empty-pool
error, emitting exactly one failure ChatLog per attempt made. -/
theorem balanceLoop_exhaustion (style : String) (before : BeforeParams)
    (ps : List Provider) (mappings : List ModelWithProvider)
    (t : Nat) (oracle : Nat → Attempt) (ht : 1 ≤ t)
    (hctx : ∀ i, (oracle i).ctxDone = false)
    (hnew : ∀ i, (oracle i).newErr = none)
    (hns : ∀ i, outcomeSucceeds (oracle i).outcome = false) :
    ∀ fuel retry items,
      (∀ p ∈ items, ∃ mp,
        mappings.find? (fun m => m.id == p.1) = some mp ∧
        keepMapping style before ps mp = true) →
      ((balanceLoop style before ps mappings t oracle fuel retry items).1 =
          .maxRetries ∨
       (balanceLoop style before ps mappings t oracle fuel retry items).1 =
          .balancerEmpty) ∧
      sendFailCount
        (balanceLoop style before ps mappings t oracle fuel retry
          items).2.2 ≤ fuel ∧
      ((balanceLoop style before ps mappings t oracle fuel retry items).1 =
          .maxRetries →
        sendFailCount
          (balanceLoop style before ps mappings t oracle fuel retry
            items).2.2 = fuel) := by
  intro fuel
  induction fuel with
  | zero =>
    intro retry items hcov
    exact ⟨Or.inl rfl, Nat.le_refl 0, fun _ => rfl⟩
  | succ n ih =>
    intro retry items hcov
    rcases hstep : balanceStep style before ps mappings t retry
        (oracle retry) items with ⟨r, evs⟩ | ⟨its2, evs⟩
    · rw [balanceLoop_succ_stop style before ps mappings t oracle n retry
        items r evs hstep]
      obtain ⟨hr, hevs⟩ := balanceStep_stop_of_failure style before ps
        mappings t retry (oracle retry) items r evs (hctx retry) ht
        (hnew retry) (hns retry) hcov hstep
      subst hr
      subst hevs
      exact ⟨Or.inr rfl, by simp [sendFailCount],
        fun hmr => LoopResult.noConfusion hmr⟩
    · rw [balanceLoop_succ_next style before ps mappings t oracle n retry
        items its2 evs hstep]
      dsimp only []
      obtain ⟨⟨l, hl⟩, hkeys⟩ := balanceStep_next_shape style before ps
        mappings t retry (oracle retry) items its2 evs hstep
      subst hl
      have hcov2 : ∀ p ∈ its2, ∃ mp,
          mappings.find? (fun m => m.id == p.1) = some mp ∧
          keepMapping style before ps mp = true := by
        intro p hp
        obtain ⟨w, hw⟩ := hkeys p hp
        exact hcov (p.1, w) hw
      obtain ⟨hres, hcnt, hmax⟩ := ih (retry + 1) its2 hcov2
      refine ⟨hres, ?_, ?_⟩
      · rw [sendFailCount_append]
        have h1 : sendFailCount [Event.sendFail l] = 1 := rfl
        omega
      · intro hmr
        rw [sendFailCount_append]
        have h1 : sendFailCount [Event.sendFail l] = 1 := rfl
        have h2 := hmax hmr
        omega

/-- The per-capability skip test passes iff the flag is not an explicit
false when the capability is needed. -/
theorem capBlocked_false_iff (flag : Option Bool) (need : Bool) :
    capBlocked flag need = false ↔ (need = true → flag ≠ some false) := by
  cases flag with
  | none => simp [capBlocked]
  | some b => cases b <;> cases need <;> simp [capBlocked]

/-- Characterization of the source filter of lines 103-123. -/
theorem keepMapping_eq_true_iff (style : String) (before : BeforeParams)
    (ps : List Provider) (mp : ModelWithProvider) :
    keepMapping style before ps mp = true ↔
      (capBlocked mp.toolCall before.toolCall = false ∧
       capBlocked mp.structuredOutput before.structuredOutput = false ∧
       capBlocked mp.image before.image = false ∧
       ∃ p, providerLookup ps mp.providerID = some p ∧ p.type = style) := by
  unfold keepMapping
  cases h1 : capBlocked mp.toolCall before.toolCall with
  | true => simp [h1]
  | false =>
    cases h2 : capBlocked mp.structuredOutput before.structuredOutput with
    | true => simp [h2]
    | false =>
      cases h3 : capBlocked mp.image before.image with
      | true => simp [h3]
      | false =>
        cases hpl : providerLookup ps mp.providerID with
        | none => simp [hpl]
        | some q => simp [hpl, beq_iff_eq]

/-- Every provider the style query loads has the requested type. -/
theorem mem_providersByIdsAndType (tbl : List Provider) (ids : List Nat)
    (style : String) (p : Provider)
    (hp : p ∈ providersByIdsAndType tbl ids style) : p.type = style := by
  have := List.of_mem_filter hp
  simp only [Bool.and_eq_true, beq_iff_eq] at this
  exact this.2

/-! ## Claim theorems -/

/-- Claim C9 (implicit): at every iteration, every key of the mutable
weight map is the id of some entry of the loaded mapping slice — the map
is built from that slice and later only has entries deleted or weights
decremented — so after any successful pick the `IndexFunc` lookup finds
a non-negative index and the slice indexing never panics: a loop started
from the built pool never reaches the panic result. -/
theorem c9_no_index_panic (style : String) (before : BeforeParams)
    (ps : List Provider) (mappings : List ModelWithProvider)
    (t : Nat) (oracle : Nat → Attempt) (fuel retry : Nat) :
    resultIsIndexPanic
      (balanceLoop style before ps mappings t oracle fuel retry
        (poolItems style before ps mappings)).1 = false := by
  apply balanceLoop_no_indexPanic
  intro p hp
  simp only [poolItems, List.mem_map] at hp
  obtain ⟨mp, hmp, hpe⟩ := hp
  exact ⟨mp, List.mem_of_mem_filter hmp, by rw [← hpe]⟩

/-- Claim C5 (code bug): the attempt-entry select has a default branch
and polls a freshly created `time.After` timer, so for any positive
`timeout_seconds` the timeout branch is never taken and the dispatch
loop never returns the retry-timeout error. -/
theorem c5_timeout_branch_dead (d : Bool) (t : Nat) (ht : 1 ≤ t) :
    attemptEntrySelect d t ≠ .timedOut ∧
    ∀ style before ps mappings oracle fuel retry items,
      (balanceLoop style before ps mappings t oracle fuel retry items).1 ≠
        LoopResult.retryTimeout :=
  ⟨attemptEntrySelect_ne_timedOut d t ht,
   fun style before ps mappings oracle fuel retry items =>
     balanceLoop_no_retryTimeout style before ps mappings t oracle ht fuel
       retry items⟩

/-- Witness for C5 at the fixture timeout of 30 seconds. -/
theorem c5_timeout_branch_dead_witness :
    1 ≤ 30 ∧
    (attemptEntrySelect false 30 ≠ .timedOut ∧
     ∀ style before ps mappings oracle fuel retry items,
       (balanceLoop style before ps mappings 30 oracle fuel retry
         items).1 ≠ LoopResult.retryTimeout) :=
  ⟨by decide, c5_timeout_branch_dead false 30 (by decide)⟩

/-- Claim C4 (amended): a request whose attempts all fail makes at most
`max_retry` attempts, emits exactly one failure ChatLog per attempt that
reached the upstream call site, and ends in `MaxRetriesReached` when all
`max_retry` attempts were used — or in the balancer's empty-pool error
if the weight map empties first. -/
theorem c4_retry_bound (style : String) (before : BeforeParams)
    (ps : List Provider) (mappings : List ModelWithProvider)
    (t maxRetry : Nat) (oracle : Nat → Attempt) (ht : 1 ≤ t)
    (hnd : (mappings.map (fun m => m.id)).Nodup)
    (hctx : ∀ i, (oracle i).ctxDone = false)
    (hnew : ∀ i, (oracle i).newErr = none)
    (hns : ∀ i, outcomeSucceeds (oracle i).outcome = false) :
    ((balanceLoop style before ps mappings t oracle maxRetry 0
        (poolItems style before ps mappings)).1 = .maxRetries ∨
     (balanceLoop style before ps mappings t oracle maxRetry 0
        (poolItems style before ps mappings)).1 = .balancerEmpty) ∧
    sendFailCount
      (balanceLoop style before ps mappings t oracle maxRetry 0
        (poolItems style before ps mappings)).2.2 ≤ maxRetry ∧
    ((balanceLoop style before ps mappings t oracle maxRetry 0
        (poolItems style before ps mappings)).1 = .maxRetries →
      sendFailCount
        (balanceLoop style before ps mappings t oracle maxRetry 0
          (poolItems style before ps mappings)).2.2 = maxRetry) :=
  balanceLoop_exhaustion style before ps mappings t oracle ht hctx hnew hns
    maxRetry 0 (poolItems style before ps mappings)
    (poolItems_covered style before ps mappings hnd)

/-- Witness for C4 at a concrete input: one mapping, every attempt a
transport error, `max_retry = 3`. -/
theorem c4_retry_bound_witness :
    (∀ i, outcomeSucceeds (oracleC4 i).outcome = false) ∧
    ((balanceLoop "openai" beforeX [pA] [mpA] 30 oracleC4 3 0
        (poolItems "openai" beforeX [pA] [mpA])).1 = .maxRetries ∨
     (balanceLoop "openai" beforeX [pA] [mpA] 30 oracleC4 3 0
        (poolItems "openai" beforeX [pA] [mpA])).1 = .balancerEmpty) ∧
    sendFailCount
      (balanceLoop "openai" beforeX [pA] [mpA] 30 oracleC4 3 0
        (poolItems "openai" beforeX [pA] [mpA])).2.2 ≤ 3 ∧
    ((balanceLoop "openai" beforeX [pA] [mpA] 30 oracleC4 3 0
        (poolItems "openai" beforeX [pA] [mpA])).1 = .maxRetries →
      sendFailCount
        (balanceLoop "openai" beforeX [pA] [mpA] 30 oracleC4 3 0
          (poolItems "openai" beforeX [pA] [mpA])).2.2 = 3) := by
  have h := c4_retry_bound "openai" beforeX [pA] [mpA] 30 3 oracleC4
    (by decide) (by decide) (fun i => rfl) (fun i => rfl) (fun i => rfl)
  exact ⟨fun i => rfl, h.1, h.2.1, h.2.2⟩

/-- Counterexample for C4 as stated: with pool `{1 ↦ 6}` and `max_retry
= 3`, a transport error on attempt 0 empties the pool, and attempt 1
returns the balancer's empty-pool error, not `MaxRetriesReached` —
although the request exhausted its pool without a success (one failure
ChatLog was emitted, within the bound). -/
theorem c4_counterexample :
    (∀ i, outcomeSucceeds (oracleC4 i).outcome = false) ∧
    (balanceLoop "openai" beforeX [pA] [mpA] 30 oracleC4 3 0
      (poolItems "openai" beforeX [pA] [mpA])).1 = .balancerEmpty ∧
    sendFailCount
      (balanceLoop "openai" beforeX [pA] [mpA] 30 oracleC4 3 0
        (poolItems "openai" beforeX [pA] [mpA])).2.2 = 1 ∧
    LoopResult.balancerEmpty ≠ LoopResult.maxRetries :=
  ⟨fun i => rfl, by decide, by decide, by decide⟩

/-- Claim C10 (implicit): if the synchronous save of the provisional
success ChatLog fails after a 200, the run returns that store error and
every event of its trace is a failure-log send: no response headers were
set, no bytes were delivered to the client, and no success ChatLog row
was created. -/
theorem c10_save_failure_no_output (style : String) (before : BeforeParams)
    (ps : List Provider) (mappings : List ModelWithProvider)
    (t : Nat) (oracle : Nat → Attempt) :
    ∀ fuel retry items e,
      (balanceLoop style before ps mappings t oracle fuel retry items).1 =
        .saveFailed e →
      ((balanceLoop style before ps mappings t oracle fuel retry
        items).2.2).all eventIsSendFail = true := by
  intro fuel
  induction fuel with
  | zero => intro retry items e h; exact LoopResult.noConfusion h
  | succ n ih =>
    intro retry items e h
    rcases hstep : balanceStep style before ps mappings t retry
        (oracle retry) items with ⟨r, evs⟩ | ⟨its2, evs⟩
    · rw [balanceLoop_succ_stop style before ps mappings t oracle n retry
        items r evs hstep] at h ⊢
      have hr : r = .saveFailed e := h
      rcases balanceStep_stop_shape style before ps mappings t retry
          (oracle retry) items r evs hstep with ⟨_, hevs⟩ | ⟨d, ce, hrd, _⟩
      · subst hevs; rfl
      · rw [hr] at hrd
        exact LoopResult.noConfusion hrd
    · rw [balanceLoop_succ_next style before ps mappings t oracle n retry
        items its2 evs hstep] at h ⊢
      dsimp only [] at h ⊢
      obtain ⟨⟨l, hl⟩, _⟩ := balanceStep_next_shape style before ps mappings
        t retry (oracle retry) items its2 evs hstep
      subst hl
      simp only [List.all_append, Bool.and_eq_true]
      exact ⟨rfl, ih (retry + 1) its2 e h⟩

/-- Witness for C10: the upstream returns 200 but the ChatLog save
fails; the run ends in the store error with an all-send trace. -/
theorem c10_save_failure_no_output_witness :
    (balanceLoop "openai" beforeX [pA] [mpA] 30 oracleC10 3 0
      [(1, 6)]).1 = .saveFailed "db write failed" ∧
    ((balanceLoop "openai" beforeX [pA] [mpA] 30 oracleC10 3 0
      [(1, 6)]).2.2).all eventIsSendFail = true :=
  ⟨by decide,
   c10_save_failure_no_output "openai" beforeX [pA] [mpA] 30 oracleC10 3 0
     [(1, 6)] "db write failed" (by decide)⟩

/-- Claim C2: when the selected mapping, present with weight `w ≥ 1`,
gets HTTP 429, the loop emits a failure ChatLog for the attempt and
penalizes the mapping: its weight in the pool becomes
`max(1, w - ⌊w/3⌋)` and it remains present in the weight map. -/
theorem c2_penalize_429 (style : String) (before : BeforeParams)
    (ps : List Provider) (mappings : List ModelWithProvider)
    (timeoutSeconds retry : Nat) (a : Attempt) (items : List (Nat × Int))
    (k : Nat) (mp : ModelWithProvider) (p : Provider) (w : Int)
    (body : UpstreamBody)
    (hctx : a.ctxDone = false) (ht : 1 ≤ timeoutSeconds)
    (hpick : WeightedRandom items a.draw = some k)
    (hfind : mappings.find? (fun m => m.id == k) = some mp)
    (hprov : providerLookup ps mp.providerID = some p)
    (hnew : a.newErr = none)
    (hout : a.outcome = .http 429 body)
    (hw : wLookup items k = some w) (hw1 : 1 ≤ w) :
    balanceStep style before ps mappings timeoutSeconds retry a items =
      .next (wPenalize items k)
        [.sendFail ((mkLog before mp p style retry).WithError
          ("status: " ++ toString 429))] ∧
    wLookup (wPenalize items k) k = some (max 1 (w - w / 3)) := by
  constructor
  · simp only [balanceStep, hctx, attemptEntrySelect_default _ ht, hpick,
      hfind, hprov, hnew, hout]
    norm_num
  · rw [wLookup_wPenalize, hw]
    simp only [Option.map_some']
    congr 1
    omega

/-- Witness for C2: pool `{1 ↦ 6}`, a 429 response; the step penalizes
mapping 1, whose weight becomes `max(1, 6 - 6/3) = 4`, and emits a
failure ChatLog. -/
theorem c2_penalize_429_witness :
    wLookup [((1 : Nat), (6 : Int))] 1 = some 6 ∧
    balanceStep "openai" beforeX [pA] [mpA] 30 0 (attOf (.http 429 bodyB))
        [(1, 6)] =
      .next (wPenalize [(1, 6)] 1)
        [.sendFail ((mkLog beforeX mpA pA "openai" 0).WithError
          ("status: " ++ toString 429))] ∧
    wLookup (wPenalize [(1, 6)] 1) 1 = some (max 1 (6 - 6 / 3)) := by
  have h := c2_penalize_429 "openai" beforeX [pA] [mpA] 30 0
    (attOf (.http 429 bodyB)) [(1, 6)] 1 mpA pA 6 bodyB rfl (by decide)
    (by decide) (by decide) (by decide) rfl rfl (by decide) (by decide)
  exact ⟨by decide, h.1, h.2⟩

/-- Claim C3: a transport error or a non-429 non-2xx status removes the
selected mapping's key from the weight map before the next pick, and no
later step of the loop resurrects it, so it stays absent for all
subsequent attempts of the request. -/
theorem c3_remove_on_failure (style : String) (before : BeforeParams)
    (ps : List Provider) (mappings : List ModelWithProvider)
    (timeoutSeconds retry : Nat) (a : Attempt) (items : List (Nat × Int))
    (k : Nat) (mp : ModelWithProvider) (p : Provider)
    (hctx : a.ctxDone = false) (ht : 1 ≤ timeoutSeconds)
    (hpick : WeightedRandom items a.draw = some k)
    (hfind : mappings.find? (fun m => m.id == k) = some mp)
    (hprov : providerLookup ps mp.providerID = some p)
    (hnew : a.newErr = none)
    (hout : (∃ msg, a.outcome = .transportError msg) ∨
      (∃ s body, a.outcome = .http s body ∧ s ≠ 429 ∧
        ¬(200 ≤ s ∧ s ≤ 299))) :
    (∃ evs, balanceStep style before ps mappings timeoutSeconds retry a
        items = .next (wErase items k) evs) ∧
    wLookup (wErase items k) k = none ∧
    (∀ its t2 r2 a2 its2 evs2, wLookup its k = none →
      balanceStep style before ps mappings t2 r2 a2 its = .next its2 evs2 →
      wLookup its2 k = none) := by
  refine ⟨?_, wLookup_wErase items k, ?_⟩
  · rcases hout with ⟨msg, hmsg⟩ | ⟨s, body, hsb, h429, hrange⟩
    · simp only [balanceStep, hctx, attemptEntrySelect_default _ ht, hpick,
        hfind, hprov, hnew, hmsg]
      exact ⟨_, rfl⟩
    · have hs200 : s ≠ 200 := fun h => hrange ⟨by omega, by omega⟩
      simp only [balanceStep, hctx, attemptEntrySelect_default _ ht, hpick,
        hfind, hprov, hnew, hsb]
      simp only [ne_eq, hs200, not_false_eq_true, bne_iff_ne, if_true,
        beq_iff_eq, h429, if_false]
      exact ⟨_, rfl⟩
  · intro its t2 r2 a2 its2 evs2 hnone hstep
    unfold balanceStep at hstep
    repeat' split at hstep
    all_goals try exact StepOut.noConfusion hstep
    all_goals injection hstep with h1 h2
    all_goals subst h1
    all_goals first
      | exact wLookup_none_wErase _ _ _ hnone
      | exact wLookup_none_wPenalize _ _ _ hnone

/-- Witness for C3: pool `{1 ↦ 6, 2 ↦ 1}`, a 500 response for mapping 1;
the step erases key 1 and the erased map no longer carries it. -/
theorem c3_remove_on_failure_witness :
    (∃ evs, balanceStep "openai" beforeX [pA] [mpA, mpB] 30 0
        (attOf (.http 500 bodyB)) [(1, 6), (2, 1)] =
        .next (wErase [(1, 6), (2, 1)] 1) evs) ∧
    wLookup (wErase [(1, 6), (2, 1)] 1) 1 = none ∧
    (∀ its t2 r2 a2 its2 evs2, wLookup its 1 = none →
      balanceStep "openai" beforeX [pA] [mpA, mpB] t2 r2 a2 its =
        .next its2 evs2 →
      wLookup its2 1 = none) :=
  c3_remove_on_failure "openai" beforeX [pA] [mpA, mpB] 30 0
    (attOf (.http 500 bodyB)) [(1, 6), (2, 1)] 1 mpA pA rfl (by decide)
    (by decide) (by decide) (by decide) rfl
    (Or.inr ⟨500, bodyB, rfl, by decide, by decide⟩)

/-- Claim C8 (amended): in every run that ends in the success return,
the event trace is the failure-log sends, in order, followed by the
success-log save, the header write and the delivery — so every failure
ChatLog is sent to the log channel before the success ChatLog row is
created. (The asynchronous drainer gives no bound on the insert times,
so the `created_at` ordering of the claim does not follow; see the
counterexample.) -/
theorem c8_send_before_success (style : String) (before : BeforeParams)
    (ps : List Provider) (mappings : List ModelWithProvider)
    (t : Nat) (oracle : Nat → Attempt) :
    ∀ fuel retry items d ce,
      (balanceLoop style before ps mappings t oracle fuel retry items).1 =
        .done d ce →
      ∃ (fails : List ChatLog) (r2 : Nat),
        (balanceLoop style before ps mappings t oracle fuel retry
          items).2.2 =
        fails.map Event.sendFail ++
          [.saveSuccess r2, .setHeaders before.stream, .deliver d] := by
  intro fuel
  induction fuel with
  | zero => intro retry items d ce h; exact LoopResult.noConfusion h
  | succ n ih =>
    intro retry items d ce h
    rcases hstep : balanceStep style before ps mappings t retry
        (oracle retry) items with ⟨r, evs⟩ | ⟨its2, evs⟩
    · rw [balanceLoop_succ_stop style before ps mappings t oracle n retry
        items r evs hstep] at h ⊢
      have hr : r = .done d ce := h
      rcases balanceStep_stop_shape style before ps mappings t retry
          (oracle retry) items r evs hstep with ⟨hnd, _⟩ |
          ⟨d0, ce0, hrd, hevs⟩
      · exact absurd hr (hnd d ce)
      · rw [hr] at hrd
        injection hrd with hd hce
        subst hd
        exact ⟨[], retry, by simp [hevs]⟩
    · rw [balanceLoop_succ_next style before ps mappings t oracle n retry
        items its2 evs hstep] at h ⊢
      dsimp only [] at h ⊢
      obtain ⟨⟨l, hl⟩, _⟩ := balanceStep_next_shape style before ps mappings
        t retry (oracle retry) items its2 evs hstep
      subst hl
      obtain ⟨fails, r2, htr⟩ := ih (retry + 1) its2 d ce h
      exact ⟨l :: fails, r2, by simp [htr]⟩

/-- Witness for C8: attempt 0 fails with a transport error, attempt 1
succeeds; the trace is the failure send followed by the success block. -/
theorem c8_send_before_success_witness :
    (balanceLoop "openai" beforeX [pA] [mpA, mpB] 30 oracleC8 3 0
      (poolItems "openai" beforeX [pA] [mpA, mpB])).1 = .done [66] none ∧
    ∃ (fails : List ChatLog) (r2 : Nat),
      (balanceLoop "openai" beforeX [pA] [mpA, mpB] 30 oracleC8 3 0
        (poolItems "openai" beforeX [pA] [mpA, mpB])).2.2 =
      fails.map Event.sendFail ++
        [.saveSuccess r2, .setHeaders beforeX.stream, .deliver [66]] :=
  ⟨by decide,
   c8_send_before_success "openai" beforeX [pA] [mpA, mpB] 30 oracleC8 3 0
     (poolItems "openai" beforeX [pA] [mpA, mpB]) [66] none (by decide)⟩

/-- Counterexample for C8 as stated: the run above sends its one failure
log at trace position 0 and saves the success log at position 1, but the
failure row is inserted by the asynchronous drainer, whose only
constraints are insert-after-send and FIFO order; the schedule that
inserts it at time 5 is admissible and exceeds the success position, so
the claimed `created_at` bound fails. -/
theorem c8_counterexample :
    (balanceLoop "openai" beforeX [pA] [mpA, mpB] 30 oracleC8 3 0
      (poolItems "openai" beforeX [pA] [mpA, mpB])).2.2 =
      [.sendFail ((mkLog beforeX mpA pA "openai" 0).WithError
          "connection refused"),
       .saveSuccess 1, .setHeaders false, .deliver [66]] ∧
    ¬ failureTimesBounded [0] 1 := by
  constructor
  · decide
  · intro hb
    have had : admissibleSchedule [0] (fun _ => 5) := by
      constructor
      · intro i hi
        simp only [List.length_singleton] at hi
        interval_cases i
        simp [List.getD]
      · intro i j hij hj
        simp only [List.length_singleton] at hj
        omega
    have := hb (fun _ => 5) had 0 (by simp)
    exact absurd this (by decide)

/-- Every byte sequence the copy produces is a prefix of the upstream
chunks' concatenation. -/
theorem copyChunks_lead (cs : List (List Nat)) (f : Option Nat) :
    ∃ tl, (copyChunks cs f).1 ++ tl = cs.flatten := by
  induction cs generalizing f with
  | nil => exact ⟨[], rfl⟩
  | cons c rest ih =>
    cases f with
    | none =>
      obtain ⟨tl, htl⟩ := ih none
      exact ⟨tl, by simp [copyChunks, htl]⟩
    | some n =>
      cases n with
      | zero => exact ⟨c ++ rest.flatten, by simp [copyChunks]⟩
      | succ m =>
        obtain ⟨tl, htl⟩ := ih (some m)
        exact ⟨tl, by simp [copyChunks, htl]⟩

/-- Without a client write error the copy delivers all chunks. -/
theorem copyChunks_complete (cs : List (List Nat)) (f : Option Nat)
    (h : (copyChunks cs f).2.2 = false) :
    (copyChunks cs f).1 = cs.flatten := by
  induction cs generalizing f with
  | nil => rfl
  | cons c rest ih =>
    cases f with
    | none =>
      have := ih none (by simpa [copyChunks] using h)
      simp [copyChunks, this]
    | some n =>
      cases n with
      | zero => simp [copyChunks] at h
      | succ m =>
        have := ih (some m) (by simpa [copyChunks] using h)
        simp [copyChunks, this]

/-- The client bytes are a prefix of the upstream body. -/
theorem runCopy_lead (body : UpstreamBody) (f : Option Nat) :
    ∃ tl, (runCopy body f).1 ++ tl = body.chunks.flatten :=
  copyChunks_lead body.chunks f

/-- When the copy ends without error the client received the full
upstream body. -/
theorem runCopy_complete (body : UpstreamBody) (f : Option Nat)
    (h : (runCopy body f).2 = none) :
    (runCopy body f).1 = body.chunks.flatten := by
  cases hw : (copyChunks body.chunks f).2.2 with
  | false => exact copyChunks_complete body.chunks f hw
  | true => simp [runCopy, hw] at h

/-- Claim C1 (amended "2xx" → "200", the only status the engine treats
as success): when the selected upstream returns HTTP 200 and the
provisional ChatLog save succeeds, the step returns the success result;
the byte sequence delivered to the client is a prefix of the upstream
response body, and when the copy completes without error it equals the
full upstream response, in order. -/
theorem c1_success_stream_bytes (style : String) (before : BeforeParams)
    (ps : List Provider) (mappings : List ModelWithProvider)
    (timeoutSeconds retry : Nat) (a : Attempt) (items : List (Nat × Int))
    (k : Nat) (mp : ModelWithProvider) (p : Provider) (body : UpstreamBody)
    (hctx : a.ctxDone = false) (ht : 1 ≤ timeoutSeconds)
    (hpick : WeightedRandom items a.draw = some k)
    (hfind : mappings.find? (fun m => m.id == k) = some mp)
    (hprov : providerLookup ps mp.providerID = some p)
    (hnew : a.newErr = none)
    (hout : a.outcome = .http 200 body)
    (hsave : a.saveErr = none) :
    balanceStep style before ps mappings timeoutSeconds retry a items =
      .stop (.done (runCopy body a.writeFailAt).1
          (runCopy body a.writeFailAt).2)
        [.saveSuccess retry, .setHeaders before.stream,
         .deliver (runCopy body a.writeFailAt).1] ∧
    (∃ tl, (runCopy body a.writeFailAt).1 ++ tl = body.chunks.flatten) ∧
    ((runCopy body a.writeFailAt).2 = none →
      (runCopy body a.writeFailAt).1 = body.chunks.flatten) := by
  refine ⟨?_, runCopy_lead body a.writeFailAt,
    runCopy_complete body a.writeFailAt⟩
  simp only [balanceStep, hctx, attemptEntrySelect_default _ ht, hpick,
    hfind, hprov, hnew, hout, hsave]
  norm_num

/-- Witness for C1: a 200 response with body bytes `[66]`, no write
failure; the client receives exactly `[66]`. -/
theorem c1_success_stream_bytes_witness :
    (attOf (.http 200 bodyB)).outcome = .http 200 bodyB ∧
    (balanceStep "openai" beforeX [pA] [mpA] 30 0 (attOf (.http 200 bodyB))
        [(1, 6)] =
      .stop (.done (runCopy bodyB none).1 (runCopy bodyB none).2)
        [.saveSuccess 0, .setHeaders false,
         .deliver (runCopy bodyB none).1] ∧
     (∃ tl, (runCopy bodyB none).1 ++ tl = bodyB.chunks.flatten) ∧
     ((runCopy bodyB none).2 = none →
       (runCopy bodyB none).1 = bodyB.chunks.flatten)) :=
  ⟨rfl,
   c1_success_stream_bytes "openai" beforeX [pA] [mpA] 30 0
     (attOf (.http 200 bodyB)) [(1, 6)] 1 mpA pA bodyB rfl (by decide)
     (by decide) (by decide) (by decide) rfl rfl rfl⟩

/-- Counterexample for C1 as stated ("HTTP 2xx"): the engine treats only
status 200 as success (`res.StatusCode != http.StatusOK`); attempt 0's
upstream returns 201 — a 2xx status — with body bytes `[65, 65]`, is
classified as a failure and removed, and the client instead receives the
bytes `[66]` of attempt 1's 200 response, which are not a prefix of the
201 response's body. -/
theorem c1_counterexample :
    (oracleC1 0).outcome = .http 201 bodyAA ∧
    (200 ≤ 201 ∧ 201 ≤ 299) ∧
    bodyAA.chunks.flatten = [65, 65] ∧
    (balanceLoop "openai" beforeX [pA] [mpA, mpB] 30 oracleC1 3 0
      (poolItems "openai" beforeX [pA] [mpA, mpB])).1 = .done [66] none ∧
    (∀ tl, ¬ ([66] ++ tl = [65, 65])) := by
  refine ⟨rfl, by decide, rfl, by decide, ?_⟩
  intro tl h
  simp at h

/-- Claim C6: pool resolution keeps a mapping iff its provider was
loaded with type equal to the request style and, for each capability the
request needs, the mapping's flag is null or true — a mapping with an
explicit false flag for a needed capability is excluded before dispatch
— and an empty result after filtering yields the no-eligible-mapping
error. -/
theorem c6_capability_filter (modelTbl : List ModelRow)
    (mappingTbl : List ModelWithProvider) (providerTbl : List Provider)
    (style : String) (before : BeforeParams) (oracle : Nat → Attempt)
    (mappings : List ModelWithProvider) (mr tout : Nat)
    (hok : ProvidersBymodelsName modelTbl mappingTbl before.model =
      .ok (mappings, mr, tout)) :
    (∀ mp, keepMapping style before
        (providersByIdsAndType providerTbl
          (mappings.map (fun m => m.providerID)) style) mp = true ↔
      eligibleSpec style before
        (providersByIdsAndType providerTbl
          (mappings.map (fun m => m.providerID)) style) mp) ∧
    (∀ k, (∃ w, (k, w) ∈ poolItems style before
        (providersByIdsAndType providerTbl
          (mappings.map (fun m => m.providerID)) style) mappings) ↔
      ∃ mp ∈ mappings, mp.id = k ∧ keepMapping style before
        (providersByIdsAndType providerTbl
          (mappings.map (fun m => m.providerID)) style) mp = true) ∧
    (providersByIdsAndType providerTbl
        (mappings.map (fun m => m.providerID)) style ≠ [] →
      poolItems style before
        (providersByIdsAndType providerTbl
          (mappings.map (fun m => m.providerID)) style) mappings = [] →
      BalanceChatRun modelTbl mappingTbl providerTbl style before oracle =
        (.noEligible, [])) := by
  refine ⟨fun mp => ?_, fun k => ?_, fun hne hempty => ?_⟩
  · rw [keepMapping_eq_true_iff]
    unfold eligibleSpec
    constructor
    · rintro ⟨h1, h2, h3, q, hq, hqt⟩
      refine ⟨⟨q, List.mem_of_find?_eq_some hq, ?_, hqt⟩,
        (capBlocked_false_iff _ _).mp h1,
        (capBlocked_false_iff _ _).mp h2,
        (capBlocked_false_iff _ _).mp h3⟩
      have := List.find?_some hq
      simpa using this
    · rintro ⟨⟨q, hqmem, hqid, hqt⟩, c1, c2, c3⟩
      refine ⟨(capBlocked_false_iff _ _).mpr c1,
        (capBlocked_false_iff _ _).mpr c2,
        (capBlocked_false_iff _ _).mpr c3, ?_⟩
      have hsome : ((providersByIdsAndType providerTbl
          (mappings.map (fun m => m.providerID)) style).find?
            (fun p => p.id == mp.providerID)).isSome := by
        rw [List.find?_isSome]
        exact ⟨q, hqmem, by simp [hqid]⟩
      obtain ⟨q2, hq2⟩ := Option.isSome_iff_exists.mp hsome
      exact ⟨q2, hq2, mem_providersByIdsAndType _ _ _ _
        (List.mem_of_find?_eq_some hq2)⟩
  · constructor
    · rintro ⟨w, hw⟩
      simp only [poolItems, List.mem_map] at hw
      obtain ⟨mp, hmp, hpe⟩ := hw
      injection hpe with hid hwt
      exact ⟨mp, List.mem_of_mem_filter hmp, hid, List.of_mem_filter hmp⟩
    · rintro ⟨mp, hmem, hid, hkeep⟩
      refine ⟨mp.weight, ?_⟩
      simp only [poolItems, List.mem_map]
      exact ⟨mp, List.mem_filter.mpr ⟨hmem, hkeep⟩, by rw [hid]⟩
  · have hf : (providersByIdsAndType providerTbl
        (mappings.map (fun m => m.providerID)) style).isEmpty = false := by
      rcases hps : providersByIdsAndType providerTbl
          (mappings.map (fun m => m.providerID)) style with _ | ⟨x, xs⟩
      · exact absurd hps hne
      · rw [hps]; rfl
    simp [BalanceChatRun, hok, hf, hempty]

/-- Witness for C6: a mapping whose tool-call flag is explicitly false
and a request that needs tool calling; the pool is empty and the run
returns the no-eligible-mapping error, and the filter agrees with the
spec predicate on that mapping. -/
theorem c6_capability_filter_witness :
    ProvidersBymodelsName [modelRowM] [mpNoTools] beforeTools.model =
      .ok ([mpNoTools], 3, 30) ∧
    (keepMapping "openai" beforeTools
        (providersByIdsAndType [pA]
          ([mpNoTools].map (fun m => m.providerID)) "openai") mpNoTools =
          true ↔
      eligibleSpec "openai" beforeTools
        (providersByIdsAndType [pA]
          ([mpNoTools].map (fun m => m.providerID)) "openai") mpNoTools) ∧
    BalanceChatRun [modelRowM] [mpNoTools] [pA] "openai" beforeTools
      oracleC4 = (.noEligible, []) := by
  have h := c6_capability_filter [modelRowM] [mpNoTools] [pA] "openai"
    beforeTools oracleC4 [mpNoTools] 3 30 rfl
  exact ⟨rfl, h.1 mpNoTools, h.2.2 (by decide) (by decide)⟩

/-- Claim C7 (code bug): the model lookup (line 324) excludes
soft-deleted rows, but the mapping lookup (line 346) and the provider
lookup (line 88) carry no soft-delete condition: a soft-deleted mapping
row is returned and its id enters the request pool, and a soft-deleted
provider row is loaded for dispatch. -/
theorem c7_soft_deleted_rows_reachable :
    modelByName [{ modelRowM with deletedAt := some 7 }] "m" = none ∧
    mpDel.deletedAt = some 5 ∧
    mappingsByModelID [mpDel] 1 = [mpDel] ∧
    (∃ w, (mpDel.id, w) ∈ poolItems "openai" beforeX [pA] [mpDel]) ∧
    pDel.deletedAt = some 3 ∧
    providersByIdsAndType [pDel] [9] "openai" = [pDel] := by
  exact ⟨by decide, rfl, by decide, ⟨1, by decide⟩, rfl, by decide⟩

end Llmio
